import Mathlib

/-!
Verification of the CloudPaste WebDAV storage driver.

Paths and XML text fragments are modelled as `List Char` (JavaScript
strings viewed as sequences of Unicode scalar values).  Each definition
is a direct translation of the corresponding JavaScript function from
the repository; the source file and function name appear in each doc
comment.
-/

namespace CloudPaste

/-! ## Path utilities (`WebDAVPathUtils.js`) -/

/-- The JavaScript regex replacement `replace(/\/+/g, '/')` used by
`normalizeWebDAVPath` collapses every maximal run of `'/'` characters into a
single `'/'`.  Equivalently, a `'/'` is dropped whenever it is immediately
followed by another `'/'`. -/
def collapseSlashes : List Char → List Char
  | [] => []
  | [c] => [c]
  | a :: b :: rest =>
    if a = '/' ∧ b = '/' then collapseSlashes (b :: rest)
    else a :: collapseSlashes (b :: rest)

/-- Character lists with no two adjacent `'/'`: the fixed points of
`collapseSlashes`. -/
def NoDoubleSlash : List Char → Prop
  | [] => True
  | [_] => True
  | a :: b :: rest => ¬(a = '/' ∧ b = '/') ∧ NoDoubleSlash (b :: rest)

/-- `WebDAVPathUtils.js` · `normalizeWebDAVPath(path, isDirectory)`.
An empty path yields `'/'`; otherwise the path is rooted with a leading
`'/'`, runs of slashes are collapsed, a trailing slash is appended for
directories and removed (except at the root) for files. -/
def normalizeWebDAVPath (path : List Char) (isDirectory : Bool) : List Char :=
  if path = [] then ['/']
  else
    let np0 := if path.head? = some '/' then path else '/' :: path
    let np1 := collapseSlashes np0
    let np2 := if isDirectory = true ∧ ¬np1.getLast? = some '/' then np1 ++ ['/'] else np1
    if isDirectory = false ∧ np2.getLast? = some '/' ∧ ¬np2 = ['/'] then np2.dropLast else np2


/-- JavaScript `path.split('/')`: splits at every `'/'`; the empty string
splits to `[""]`, and leading/trailing/adjacent separators produce empty
segments. -/
def splitOnSlash : List Char → List (List Char)
  | [] => [[]]
  | c :: cs =>
    if c = '/' then [] :: splitOnSlash cs
    else
      match splitOnSlash cs with
      | [] => [[c]]
      | s :: rest => (c :: s) :: rest

/-- JavaScript `segments.join('/')`: interleaves a single `'/'` between
segments. -/
def joinSlash : List (List Char) → List Char
  | [] => []
  | [s] => s
  | s :: rest => s ++ '/' :: joinSlash rest

/-- Upper-case hexadecimal digit, as produced by `encodeURIComponent`. -/
def hexUpper (n : Nat) : Char :=
  if n < 10 then Char.ofNat (48 + n) else Char.ofNat (55 + n)

/-- Value of a hexadecimal digit accepted by `decodeURIComponent`
(both letter cases). -/
def hexVal (c : Char) : Option Nat :=
  let n := c.toNat
  if 48 ≤ n ∧ n ≤ 57 then some (n - 48)
  else if 65 ≤ n ∧ n ≤ 70 then some (n - 55)
  else if 97 ≤ n ∧ n ≤ 102 then some (n - 87)
  else none

/-- Characters left unescaped by `encodeURIComponent`
(ECMA-262: `A-Z a-z 0-9 - _ . ! ~ * ' ( )`). -/
def isUnreservedURI (c : Char) : Bool :=
  let n := c.toNat
  (65 ≤ n && n ≤ 90) || (97 ≤ n && n ≤ 122) || (48 ≤ n && n ≤ 57) ||
    (n == 45) || (n == 95) || (n == 46) || (n == 33) || (n == 126) ||
    (n == 42) || (n == 39) || (n == 40) || (n == 41)

/-- UTF-8 encoding of a Unicode scalar value, bytes as `Nat`. -/
def utf8Bytes (n : Nat) : List Nat :=
  if n < 128 then [n]
  else if n < 2048 then [192 + n / 64, 128 + n % 64]
  else if n < 65536 then [224 + n / 4096, 128 + n / 64 % 64, 128 + n % 64]
  else [240 + n / 262144, 128 + n / 4096 % 64, 128 + n / 64 % 64, 128 + n % 64]

/-- Percent-escape of one byte: `%XY` with upper-case hex digits. -/
def percentByte (b : Nat) : List Char :=
  '%' :: hexUpper (b / 16) :: [hexUpper (b % 16)]

/-- `encodeURIComponent` on a single character: unreserved characters pass
through, every other character becomes the percent-escapes of its UTF-8
bytes. -/
def encChar (c : Char) : List Char :=
  if isUnreservedURI c then [c] else ((utf8Bytes c.toNat).map percentByte).flatten

/-- JavaScript `encodeURIComponent`, character by character. -/
def encodeURIComponentM : List Char → List Char
  | [] => []
  | c :: cs => encChar c ++ encodeURIComponentM cs

/-- Continuation byte of a UTF-8 sequence read from two hex digits:
must lie in `0x80..0xBF`; returns its 6 payload bits. -/
def contByteVal (h1 h2 : Char) : Option Nat :=
  match hexVal h1, hexVal h2 with
  | some a, some b =>
    let v := 16 * a + b
    if 128 ≤ v ∧ v ≤ 191 then some (v - 128) else none
  | _, _ => none

/-- One percent-escape sequence at the start of `cs` (the text following a
`'%'`): reads the lead byte from two hex digits and, depending on its
range, the continuation escapes of a strict UTF-8 sequence (no overlong
forms, no surrogates, scalar values at most `0x10FFFF`).  Returns the
decoded scalar value and the number of characters of `cs` consumed
(2, 5, 8 or 11); `none` models the `URIError` thrown by
`decodeURIComponent` on malformed input. -/
def decodeEscape : List Char → Option (Nat × Nat)
  | h1 :: h2 :: rest =>
    match hexVal h1, hexVal h2 with
    | some a, some b =>
      let b1 := 16 * a + b
      if b1 ≤ 127 then some (b1, 2)
      else if 194 ≤ b1 ∧ b1 ≤ 223 then
        match rest with
        | p2 :: h3 :: h4 :: _ =>
          if p2 = '%' then
            match contByteVal h3 h4 with
            | some c2 => some ((b1 - 192) * 64 + c2, 5)
            | none => none
          else none
        | _ => none
      else if 224 ≤ b1 ∧ b1 ≤ 239 then
        match rest with
        | p2 :: h3 :: h4 :: p3 :: h5 :: h6 :: _ =>
          if p2 = '%' ∧ p3 = '%' then
            match contByteVal h3 h4, contByteVal h5 h6 with
            | some c2, some c3 =>
              let n := (b1 - 224) * 4096 + c2 * 64 + c3
              if 2048 ≤ n ∧ ¬(55296 ≤ n ∧ n ≤ 57343) then some (n, 8) else none
            | _, _ => none
          else none
        | _ => none
      else if 240 ≤ b1 ∧ b1 ≤ 244 then
        match rest with
        | p2 :: h3 :: h4 :: p3 :: h5 :: h6 :: p4 :: h7 :: h8 :: _ =>
          if p2 = '%' ∧ p3 = '%' ∧ p4 = '%' then
            match contByteVal h3 h4, contByteVal h5 h6, contByteVal h7 h8 with
            | some c2, some c3, some c4 =>
              let n := (b1 - 240) * 262144 + c2 * 4096 + c3 * 64 + c4
              if 65536 ≤ n ∧ n ≤ 1114111 then some (n, 11) else none
            | _, _, _ => none
          else none
        | _ => none
      else none
    | _, _ => none
  | _ => none

/-- JavaScript `decodeURIComponent`: a `'%'` starts a percent-escape
sequence decoded by `decodeEscape`; any malformed escape makes the whole
call fail (JS throws `URIError`), modelled by `none`.  Every other
character passes through. -/
def decodeURIComponentM : List Char → Option (List Char)
  | [] => some []
  | c :: cs =>
    if c = '%' then
      match decodeEscape cs with
      | some nk => (decodeURIComponentM (cs.drop nk.2)).map (fun t => Char.ofNat nk.1 :: t)
      | none => none
    else
      (decodeURIComponentM cs).map (fun t => c :: t)
termination_by l => l.length
decreasing_by
  · simp only [List.length_cons, List.length_drop]
    omega
  · simp

/-- `WebDAVPathUtils.js` · `encodeWebDAVPath(path)`:
`path.split('/').map(encodeURIComponent).join('/')`. -/
def encodeWebDAVPath (path : List Char) : List Char :=
  joinSlash ((splitOnSlash path).map encodeURIComponentM)

/-- Sequences an option-producing function over a list, failing if any
element fails (models a JavaScript `map` whose callback can throw). -/
def traverseOption (f : List Char → Option (List Char)) :
    List (List Char) → Option (List (List Char))
  | [] => some []
  | a :: as =>
    match f a with
    | none => none
    | some b => (traverseOption f as).map (fun t => b :: t)

/-- `WebDAVPathUtils.js` · `decodeWebDAVPath(path)`:
`path.split('/').map(decodeURIComponent).join('/')`; `none` when
`decodeURIComponent` throws on some segment. -/
def decodeWebDAVPath (path : List Char) : Option (List Char) :=
  (traverseOption decodeURIComponentM (splitOnSlash path)).map joinSlash

/-- JavaScript whitespace test for `String.prototype.trim` (the whitespace
characters relevant to this code base). -/
def isJsSpace (c : Char) : Bool :=
  (c == ' ') || (c == '\t') || (c == '\n') || (c == '\r')

/-- JavaScript `String.prototype.trim`. -/
def trimM (s : List Char) : List Char :=
  ((s.dropWhile isJsSpace).reverse.dropWhile isJsSpace).reverse

/-- ASCII decimal digit. -/
def isDigitChar (c : Char) : Bool :=
  48 ≤ c.toNat && c.toNat ≤ 57

/-- `parseInt(s, 10)` on an all-digit string. -/
def digitsToNat (s : List Char) : Nat :=
  s.foldl (fun acc c => 10 * acc + (c.toNat - 48)) 0

/-- JavaScript `String.prototype.includes`: substring containment. -/
def hasSubstr (pat : List Char) : List Char → Bool
  | [] => pat.isEmpty
  | c :: cs => pat.isPrefixOf (c :: cs) || hasSubstr pat cs

/-! ## Response parser (`WebDAVResponseParser.js`) -/

/-- A timestamp value as produced by the parser: either
`new Date(s).toISOString()` for a raw string `s` that parses, or
`new Date().toISOString()` (the current time). -/
inductive TimeVal where
  | fromString (s : List Char)
  | nowTs
deriving DecidableEq

/-- The property texts available inside one `<d:prop>` block: for each
property tag, the raw character data captured by the corresponding regex in
`parseProperties`, if that tag is present.  For `getcontentlength` the field
holds the full element text; the regex `>(\d+)<` only matches when that text
is a nonempty digit string. -/
structure PropXML where
  resourcetype : Option (List Char) := none
  getcontentlength : Option (List Char) := none
  getlastmodified : Option (List Char) := none
  getcontenttype : Option (List Char) := none
  getetag : Option (List Char) := none
  creationdate : Option (List Char) := none
  displayname : Option (List Char) := none
deriving DecidableEq

/-- One `<d:propstat>` block of a `<d:response>`: the status code digits
captured by `/<d:status[^>]*>HTTP\/\d\.\d\s+(\d+)/` if a status line
matched, and the first `<d:prop>` block if present. -/
structure PropstatXML where
  status : Option (List Char) := none
  prop : Option PropXML := none
deriving DecidableEq

/-- One `<d:response>` element: the raw text of the first `<d:href>`
element, and its `<d:propstat>` blocks in document order (JavaScript
`String.match` without the `g` flag returns the first one). -/
structure ResponseXML where
  href : Option (List Char) := none
  propstats : List PropstatXML := []
deriving DecidableEq

/-- The item object built by `parseResponseItem`/`parseProperties`.  Every
field is optional because the JavaScript object starts empty; `size` is
`Option (Option Nat)` since JavaScript distinguishes the field being unset
from being `null` (unknown size of a file). -/
structure WDItem where
  href : Option (List Char) := none
  path : Option (List Char) := none
  name : Option (List Char) := none
  isDirectory : Option Bool := none
  size : Option (Option Nat) := none
  lastModified : Option TimeVal := none
  contentType : Option (List Char) := none
  etag : Option (List Char) := none
  creationDate : Option TimeVal := none
  displayName : Option (List Char) := none
deriving DecidableEq

/-- `item.href.split('/').filter(Boolean).pop() || ''`: the last nonempty
segment of an href. -/
def lastNonEmptySegment (h : List Char) : List Char :=
  (((splitOnSlash h).filter (fun s => !s.isEmpty)).getLast?).getD []

/-- `WebDAVResponseParser.js` · `parseProperties(properties, item)`.
`validDate s` tells whether `new Date(s)` yields a valid date (so that
`toISOString()` does not throw). -/
def parseProperties (validDate : List Char → Bool) (properties : PropXML)
    (item0 : WDItem) : WDItem :=
  let isDir : Bool :=
    match properties.resourcetype with
    | some rt => hasSubstr "<d:collection".toList rt
    | none => false
  let item1 := { item0 with isDirectory := some isDir }
  let size : Option Nat :=
    match properties.getcontentlength with
    | some s =>
      if s ≠ [] ∧ s.all isDigitChar then some (digitsToNat s)
      else if isDir then some 0 else none
    | none => if isDir then some 0 else none
  let item2 := { item1 with size := some size }
  let lastMod : TimeVal :=
    match properties.getlastmodified with
    | some s => if validDate (trimM s) then .fromString (trimM s) else .nowTs
    | none => .nowTs
  let item3 := { item2 with lastModified := some lastMod }
  let ct : List Char :=
    match properties.getcontenttype with
    | some s => trimM s
    | none =>
      if isDir then "httpd/unix-directory".toList else "application/octet-stream".toList
  let item4 := { item3 with contentType := some ct }
  let item5 :=
    match properties.getetag with
    | some s => { item4 with etag := some ((trimM s).filter (fun c => !(c == '"'))) }
    | none => item4
  let creation : TimeVal :=
    match properties.creationdate with
    | some s => if validDate (trimM s) then .fromString (trimM s) else lastMod
    | none => lastMod
  let item6 := { item5 with creationDate := some creation }
  match properties.displayname with
  | some s =>
    let dn := trimM s
    if dn ≠ [] ∧ item6.name ≠ some dn then { item6 with displayName := some dn, name := some dn }
    else item6
  | none => item6

/-- The href handling at the top of `parseResponseItem`: the raw href text
is trimmed and passed to `decodeURIComponent`; a throw there is caught by
the surrounding try/catch and drops the whole item (`none`). -/
def parseResponseHref (href : Option (List Char)) : Option WDItem :=
  match href with
  | none => some {}
  | some hraw =>
    match decodeURIComponentM (trimM hraw) with
    | none => none
    | some h => some { href := some h, path := some h, name := some (lastNonEmptySegment h) }

/-- `WebDAVResponseParser.js` · `parseResponseItem(responseContent)`.
Only the first `<d:propstat>` block (the first regex match) is examined:
if it carries a status line whose code is not the digit string `200` the
item is dropped; otherwise its `<d:prop>` block, when present, is parsed
into the item. -/
def parseResponseItem (validDate : List Char → Bool) (r : ResponseXML) :
    Option WDItem :=
  match parseResponseHref r.href with
  | none => none
  | some item =>
    match r.propstats.head? with
    | none => some item
    | some ps =>
      let dropped : Bool :=
        match ps.status with
        | some st => !(st == "200".toList)
        | none => false
      if dropped then none
      else
        match ps.prop with
        | none => some item
        | some props => some (parseProperties validDate props item)

/-- `WebDAVResponseParser.js` · `parseWebDAVResponse(xmlText)`: every
`<d:response>` element is parsed with `parseResponseItem`; items that parse
to `null` are skipped. -/
def parseWebDAVResponse (validDate : List Char → Bool)
    (responses : List ResponseXML) : List WDItem :=
  responses.filterMap (parseResponseItem validDate)

/-! ## Error taxonomy and HTTP responses -/

/-- Modelled from the spec: the `ApiStatus` constants of
`constants/index.js` are not among the provided sources; §7 of the spec
names the error kinds used by the WebDAV driver (NotFound, Conflict,
Internal, plus BAD_REQUEST for unsupported capabilities). -/
inductive ApiStatusM where
  | NOT_FOUND
  | CONFLICT
  | INTERNAL_ERROR
  | BAD_REQUEST
deriving DecidableEq

/-- A thrown `HTTPException(status, { message })`. -/
structure HTTPExceptionM where
  status : ApiStatusM
  message : String
deriving DecidableEq

/-- The part of a `fetch` `Response` that the driver inspects. -/
structure ResponseM where
  status : Nat
  statusText : String
  etagHeader : Option String := none
deriving DecidableEq

/-- `Response.ok`: status in the 2xx range. -/
def ResponseM.ok (r : ResponseM) : Bool :=
  200 ≤ r.status && r.status ≤ 299

/-- Outcome of one client call as seen by a caller: either an HTTP response
(of any status) or a thrown error with its message. -/
inductive FetchOutcome where
  | resp (r : ResponseM)
  | throw (msg : String)
deriving DecidableEq

/-! ## File operations (`WebDAVFileOperations.js`) -/

/-- UTF-8 byte count of one scalar value. -/
def utf8Len (c : Char) : Nat :=
  if c.toNat < 128 then 1 else if c.toNat < 2048 then 2
  else if c.toNat < 65536 then 3 else 4

/-- Byte length of the UTF-8 encoding of a string
(`new TextEncoder().encode(s).length`). -/
def utf8ByteLength (s : List Char) : Nat :=
  (s.map utf8Len).sum

/-- JavaScript `String.prototype.length`: UTF-16 code units, so astral
characters count as 2. -/
def jsStringLength (s : List Char) : Nat :=
  (s.map (fun c => if c.toNat < 65536 then 1 else 2)).sum

/-- The object returned by a successful `updateFile`. -/
structure UpdateFileResult where
  success : Bool
  message : String
  path : List Char
  size : Nat
deriving DecidableEq

/-- `WebDAVFileOperations.js` · `updateFile(path, content, options)`,
given the response of the `PUT`.  A non-ok response throws an
INTERNAL_ERROR `HTTPException`; otherwise the result reports
`size: content.length` — the JavaScript string length of the content. -/
def updateFile (resp : ResponseM) (path content : List Char) :
    Except HTTPExceptionM UpdateFileResult :=
  if !resp.ok then
    .error ⟨.INTERNAL_ERROR, "更新文件失败: " ++ resp.statusText⟩
  else
    .ok { success := true, message := "文件更新成功", path := path,
          size := jsStringLength content }

/-- The `Content-Type` header sent by `updateFile`:
`options.contentType || 'text/plain'`. -/
def updateFileContentType (optContentType : Option String) : String :=
  match optContentType with
  | some ct => if ct = "" then "text/plain" else ct
  | none => "text/plain"

/-! ## Upload operations (`WebDAVUploadOperations.js`) -/

/-- The payload representations accepted by `uploadFile`: a `File` (with
its `type`, `name` and `size`), an `ArrayBuffer`, a Node `Buffer`, or a
string. -/
inductive UploadPayload where
  | file (ftype : String) (fname : List Char) (fsize : Nat)
  | arrayBuffer (byteLength : Nat)
  | buffer (length : Nat)
  | str (s : List Char)
deriving DecidableEq

/-- Content type, file name and size derived from the payload by
`uploadFile` before the `options.contentType` override. -/
structure UploadDerived where
  contentType : String
  fileName : List Char
  fileSize : Nat
deriving DecidableEq

/-- `WebDAVUploadOperations.js` · the payload inspection at the top of
`uploadFile`: a `File` contributes its own (possibly empty, hence falsy)
`type` and `name`; buffers contribute their byte length; a string is
UTF-8-encoded with `TextEncoder`, typed `text/plain`, and sized by the
encoded byte count. -/
def deriveUploadParams (path : List Char) (payload : UploadPayload) : UploadDerived :=
  let fileName0 := ((splitOnSlash path).getLast?).getD []
  match payload with
  | .file t n sz =>
    { contentType := if t = "" then "application/octet-stream" else t,
      fileName := if n = [] then fileName0 else n,
      fileSize := sz }
  | .arrayBuffer b =>
    { contentType := "application/octet-stream", fileName := fileName0, fileSize := b }
  | .buffer l =>
    { contentType := "application/octet-stream", fileName := fileName0, fileSize := l }
  | .str s =>
    { contentType := "text/plain", fileName := fileName0, fileSize := utf8ByteLength s }

/-- `if (options.contentType) contentType = options.contentType;` — a
truthiness test, so an empty string does not override. -/
def applyContentTypeOption (inferred : String) (optContentType : Option String) : String :=
  match optContentType with
  | some o => if o = "" then inferred else o
  | none => inferred

/-- `Object.assign(headers, options.headers)`: later entries override
earlier entries with the same key, new keys are appended. -/
def setHeaderM (hs : List (String × String)) (kv : String × String) :
    List (String × String) :=
  if hs.any (fun p => p.1 == kv.1) then hs.map (fun p => if p.1 == kv.1 then kv else p)
  else hs ++ [kv]

/-- The headers sent with the `PUT` of `uploadFile`: `Content-Type` from
the (possibly overridden) derived content type, `Content-Length` from the
derived size, then any custom `options.headers` assigned on top. -/
def uploadHeaders (d : UploadDerived) (optContentType : Option String)
    (optHeaders : List (String × String)) : List (String × String) :=
  let base := [("Content-Type", applyContentTypeOption d.contentType optContentType),
               ("Content-Length", Nat.repr d.fileSize)]
  optHeaders.foldl setHeaderM base

/-- The object returned by a successful `uploadFile`. -/
structure UploadFileResult where
  success : Bool
  message : String
  path : List Char
  fileName : List Char
  size : Nat
  contentType : String
  etag : Option String
  lastModified : TimeVal
deriving DecidableEq

/-- `WebDAVUploadOperations.js` · `uploadFile(path, file, options)` given
the `PUT` response: 409 throws Conflict, 507 throws a distinguished
INTERNAL_ERROR, any other non-ok status throws INTERNAL_ERROR; success
echoes the derived name/size/content type and the response `ETag`. -/
def uploadFile (path : List Char) (payload : UploadPayload)
    (optContentType : Option String) (resp : ResponseM) :
    Except HTTPExceptionM UploadFileResult :=
  let d := deriveUploadParams path payload
  let ct := applyContentTypeOption d.contentType optContentType
  if !resp.ok then
    if resp.status = 409 then
      .error ⟨.CONFLICT, "父目录不存在或路径冲突: " ++ String.mk path⟩
    else if resp.status = 507 then
      .error ⟨.INTERNAL_ERROR, "存储空间不足"⟩
    else
      .error ⟨.INTERNAL_ERROR, "上传文件失败: " ++ resp.statusText⟩
  else
    .ok { success := true, message := "文件上传成功", path := path,
          fileName := d.fileName, size := d.fileSize, contentType := ct,
          etag := resp.etagHeader, lastModified := .nowTs }

/-! ## Directory operations (`WebDAVDirectoryOperations.js`) -/

/-- `item.href || item.path` with JavaScript falsiness: an absent or empty
href falls back to `item.path` (absent becomes the empty string, which
`normalizeWebDAVPath` maps to `'/'`). -/
def jsHrefOrPath (item : WDItem) : List Char :=
  match item.href with
  | some h => if h = [] then item.path.getD [] else h
  | none => item.path.getD []

/-- `WebDAVDirectoryOperations.js` · the self-filter inside
`listDirectory`: keep exactly the parsed items whose normalized path
differs from the normalized (directory) query path. -/
def listDirectoryChildItems (path : List Char) (items : List WDItem) : List WDItem :=
  items.filter (fun item =>
    !(normalizeWebDAVPath (jsHrefOrPath item) (item.isDirectory.getD false) ==
      normalizeWebDAVPath path true))

/-! ## Batch operations (`WebDAVBatchOperations.js`) -/

/-- One entry of the `results`/`errors` arrays of `batchRemoveItems`. -/
structure BatchRemoveEntry where
  path : List Char
  success : Bool
  message : String
  status : Option Nat := none
deriving DecidableEq

/-- One entry of the `results`/`errors` arrays of
`batchCopyItems`/`batchMoveItems`. -/
structure BatchPairEntry where
  sourcePath : List Char
  targetPath : List Char
  success : Bool
  message : String
  status : Option Nat := none
deriving DecidableEq

/-- The aggregate object returned by the batch operations. -/
structure BatchResultM (E : Type) where
  success : Bool
  message : String
  results : List E
  errors : List E
  total : Nat
  successCount : Nat
  errorCount : Nat

/-- One iteration of the `for` loop of `batchRemoveItems`: an ok response
appends to `results`, any other response or a thrown error appends to
`errors`. -/
def batchRemoveStep (del : List Char → FetchOutcome)
    (acc : List BatchRemoveEntry × List BatchRemoveEntry) (path : List Char) :
    List BatchRemoveEntry × List BatchRemoveEntry :=
  match del path with
    | .resp r =>
      if r.ok then
        let entry : BatchRemoveEntry := { path := path, success := true, message := "删除成功" }
        (acc.1 ++ [entry], acc.2)
      else
        let msg := if r.status = 404 then "文件不存在" else "删除失败: " ++ r.statusText
        let entry : BatchRemoveEntry :=
          { path := path, success := false, message := msg, status := some r.status }
        (acc.1, acc.2 ++ [entry])
    | .throw m =>
      let entry : BatchRemoveEntry := { path := path, success := false, message := "删除失败: " ++ m }
      (acc.1, acc.2 ++ [entry])

/-- `WebDAVBatchOperations.js` · `batchRemoveItems(paths, options)`.
`del` gives the outcome of `webdavClient.delete(path)` for each path
(a response or a thrown error).  Items are processed strictly in order;
a thrown error is recorded as a failure and the loop continues. -/
def batchRemoveItems (del : List Char → FetchOutcome)
    (paths : List (List Char)) : BatchResultM BatchRemoveEntry :=
  let re := paths.foldl (batchRemoveStep del) ([], [])
  { success := re.2.length == 0,
    message := "批量删除完成: 成功 " ++ Nat.repr re.1.length ++ " 个，失败 " ++
      Nat.repr re.2.length ++ " 个",
    results := re.1, errors := re.2, total := paths.length,
    successCount := re.1.length, errorCount := re.2.length }

/-- One iteration of the `for` loop of `batchCopyItems`. -/
def batchCopyStep (copy : List Char → List Char → FetchOutcome)
    (acc : List BatchPairEntry × List BatchPairEntry) (item : List Char × List Char) :
    List BatchPairEntry × List BatchPairEntry :=
  match copy item.1 item.2 with
    | .resp r =>
      if r.ok then
        let entry : BatchPairEntry :=
          { sourcePath := item.1, targetPath := item.2, success := true, message := "复制成功" }
        (acc.1 ++ [entry], acc.2)
      else
        let msg := if r.status = 404 then "源文件不存在"
          else if r.status = 409 then "目标路径已存在"
          else "复制失败: " ++ r.statusText
        let entry : BatchPairEntry :=
          { sourcePath := item.1, targetPath := item.2, success := false, message := msg,
            status := some r.status }
        (acc.1, acc.2 ++ [entry])
    | .throw m =>
      let entry : BatchPairEntry :=
        { sourcePath := item.1, targetPath := item.2, success := false, message := "复制失败: " ++ m }
      (acc.1, acc.2 ++ [entry])

/-- `WebDAVBatchOperations.js` · `batchCopyItems(items, options)`;
`copy` gives the outcome of `webdavClient.copy(sourcePath, targetPath, …)`. -/
def batchCopyItems (copy : List Char → List Char → FetchOutcome)
    (items : List (List Char × List Char)) : BatchResultM BatchPairEntry :=
  let re := items.foldl (batchCopyStep copy) ([], [])
  { success := re.2.length == 0,
    message := "批量复制完成: 成功 " ++ Nat.repr re.1.length ++ " 个，失败 " ++
      Nat.repr re.2.length ++ " 个",
    results := re.1, errors := re.2, total := items.length,
    successCount := re.1.length, errorCount := re.2.length }

/-- One iteration of the `for` loop of `batchMoveItems`. -/
def batchMoveStep (move : List Char → List Char → FetchOutcome)
    (acc : List BatchPairEntry × List BatchPairEntry) (item : List Char × List Char) :
    List BatchPairEntry × List BatchPairEntry :=
  match move item.1 item.2 with
    | .resp r =>
      if r.ok then
        let entry : BatchPairEntry :=
          { sourcePath := item.1, targetPath := item.2, success := true, message := "移动成功" }
        (acc.1 ++ [entry], acc.2)
      else
        let msg := if r.status = 404 then "源文件不存在"
          else if r.status = 409 then "目标路径已存在"
          else "移动失败: " ++ r.statusText
        let entry : BatchPairEntry :=
          { sourcePath := item.1, targetPath := item.2, success := false, message := msg,
            status := some r.status }
        (acc.1, acc.2 ++ [entry])
    | .throw m =>
      let entry : BatchPairEntry :=
        { sourcePath := item.1, targetPath := item.2, success := false, message := "移动失败: " ++ m }
      (acc.1, acc.2 ++ [entry])

/-- `WebDAVBatchOperations.js` · `batchMoveItems(items, options)`;
`move` gives the outcome of `webdavClient.move(sourcePath, targetPath, …)`. -/
def batchMoveItems (move : List Char → List Char → FetchOutcome)
    (items : List (List Char × List Char)) : BatchResultM BatchPairEntry :=
  let re := items.foldl (batchMoveStep move) ([], [])
  { success := re.2.length == 0,
    message := "批量移动完成: 成功 " ++ Nat.repr re.1.length ++ " 个，失败 " ++
      Nat.repr re.2.length ++ " 个",
    results := re.1, errors := re.2, total := items.length,
    successCount := re.1.length, errorCount := re.2.length }

/-! ## Diagnostic summary (`webdavConfigService.js`) -/

/-- The four stage success flags of a diagnostic `testResult`. -/
structure WebDAVTestStages where
  connect : Bool
  auth : Bool
  read : Bool
  write : Bool
deriving DecidableEq

/-- The summary object returned by `generateWebDAVTestSummary`. -/
structure WebDAVTestSummary where
  overallSuccess : Bool
  message : String
deriving DecidableEq

/-- `webdavConfigService.js` · `generateWebDAVTestSummary(testResult)`:
overall success is `connect && auth && read`; the message distinguishes
full success, partial success (write unavailable), read failure, auth
failure and connect failure. -/
def generateWebDAVTestSummary (t : WebDAVTestStages) : WebDAVTestSummary :=
  let overallSuccess := t.connect && t.auth && t.read
  let message :=
    if t.connect then
      if t.auth then
        if t.read then
          if t.write then "WebDAV配置测试成功 (连接、认证、读写权限均可用)"
          else "WebDAV配置测试部分成功 (连接、认证、读取权限可用，写入权限不可用)"
        else "WebDAV配置测试部分成功 (连接、认证成功，但读取权限不可用)"
      else "WebDAV配置测试失败 (连接成功但认证失败)"
    else "WebDAV配置测试失败 (无法连接到WebDAV服务器)"
  { overallSuccess := overallSuccess, message := message }

/-! ## Driver facade (`WebDAVStorageDriver.js`) -/

/-- The driver state that `_ensureInitialized` inspects; only
`initialize()` ever assigns `initialized` (to `true`). -/
structure WebDAVDriverState where
  initialized : Bool
deriving DecidableEq

/-- The successful path of `initialize()`: after the client and operation
modules are built, `this.initialized = true`. -/
def driverInitialize (st : WebDAVDriverState) : WebDAVDriverState :=
  { st with initialized := true }

/-- The result of one facade call together with the HTTP requests issued
to the remote server during it (each request described by a string). -/
abbrev DriverCall (α : Type) := Except HTTPExceptionM α × List String

/-- The `HTTPException` thrown by `_ensureInitialized`. -/
def notInitializedError : HTTPExceptionM :=
  ⟨.INTERNAL_ERROR, "WebDAV存储驱动未初始化"⟩

/-- `WebDAVStorageDriver.listDirectory`: guard, normalize the sub-path as
a directory, delegate to `directoryOps.listDirectory`. -/
def driverListDirectory {α : Type} (st : WebDAVDriverState) (subPath : List Char)
    (dirOpsList : List Char → DriverCall α) : DriverCall α :=
  if st.initialized then dirOpsList (normalizeWebDAVPath subPath true)
  else (.error notInitializedError, [])

/-- `WebDAVStorageDriver.list` (ReaderCapable): delegates to
`listDirectory`. -/
def driverList {α : Type} (st : WebDAVDriverState) (subPath : List Char)
    (dirOpsList : List Char → DriverCall α) : DriverCall α :=
  driverListDirectory st subPath dirOpsList

/-- `WebDAVStorageDriver.getFileInfo`: guard, normalize as file, delegate
to `fileOps.getFileInfo`. -/
def driverGetFileInfo {α : Type} (st : WebDAVDriverState) (subPath : List Char)
    (fileOpsGetInfo : List Char → DriverCall α) : DriverCall α :=
  if st.initialized then fileOpsGetInfo (normalizeWebDAVPath subPath false)
  else (.error notInitializedError, [])

/-- `WebDAVStorageDriver.getInfo` (ReaderCapable): delegates to
`getFileInfo`. -/
def driverGetInfo {α : Type} (st : WebDAVDriverState) (subPath : List Char)
    (fileOpsGetInfo : List Char → DriverCall α) : DriverCall α :=
  driverGetFileInfo st subPath fileOpsGetInfo

/-- `WebDAVStorageDriver.stat` (BaseDriver): delegates to `getFileInfo`. -/
def driverStat {α : Type} (st : WebDAVDriverState) (subPath : List Char)
    (fileOpsGetInfo : List Char → DriverCall α) : DriverCall α :=
  driverGetFileInfo st subPath fileOpsGetInfo

/-- `WebDAVStorageDriver.downloadFile`: guard, normalize as file, delegate
to `fileOps.downloadFile`. -/
def driverDownloadFile {α : Type} (st : WebDAVDriverState) (subPath : List Char)
    (fileOpsDownload : List Char → DriverCall α) : DriverCall α :=
  if st.initialized then fileOpsDownload (normalizeWebDAVPath subPath false)
  else (.error notInitializedError, [])

/-- `WebDAVStorageDriver.get` (ReaderCapable): delegates to
`downloadFile`. -/
def driverGet {α : Type} (st : WebDAVDriverState) (subPath : List Char)
    (fileOpsDownload : List Char → DriverCall α) : DriverCall α :=
  driverDownloadFile st subPath fileOpsDownload

/-- `WebDAVStorageDriver.uploadFile`: guard, normalize as file, delegate
to `uploadOps.uploadFile`. -/
def driverUploadFile {α : Type} (st : WebDAVDriverState) (subPath : List Char)
    (uploadOpsUpload : List Char → DriverCall α) : DriverCall α :=
  if st.initialized then uploadOpsUpload (normalizeWebDAVPath subPath false)
  else (.error notInitializedError, [])

/-- `WebDAVStorageDriver.put` (WriterCapable): delegates to `uploadFile`. -/
def driverPut {α : Type} (st : WebDAVDriverState) (subPath : List Char)
    (uploadOpsUpload : List Char → DriverCall α) : DriverCall α :=
  driverUploadFile st subPath uploadOpsUpload

/-- `WebDAVStorageDriver.createDirectory`: guard, normalize as directory,
delegate to `directoryOps.createDirectory`. -/
def driverCreateDirectory {α : Type} (st : WebDAVDriverState) (subPath : List Char)
    (dirOpsCreate : List Char → DriverCall α) : DriverCall α :=
  if st.initialized then dirOpsCreate (normalizeWebDAVPath subPath true)
  else (.error notInitializedError, [])

/-- `WebDAVStorageDriver.mkdir` (WriterCapable): delegates to
`createDirectory`. -/
def driverMkdir {α : Type} (st : WebDAVDriverState) (subPath : List Char)
    (dirOpsCreate : List Char → DriverCall α) : DriverCall α :=
  driverCreateDirectory st subPath dirOpsCreate

/-- `WebDAVStorageDriver.renameItem`: guard, normalize both paths as
files, delegate to `fileOps.renameItem`. -/
def driverRenameItem {α : Type} (st : WebDAVDriverState) (oldPath newPath : List Char)
    (fileOpsRename : List Char → List Char → DriverCall α) : DriverCall α :=
  if st.initialized then
    fileOpsRename (normalizeWebDAVPath oldPath false) (normalizeWebDAVPath newPath false)
  else (.error notInitializedError, [])

/-- `WebDAVStorageDriver.rename` (AtomicCapable): delegates to
`renameItem`. -/
def driverRename {α : Type} (st : WebDAVDriverState) (src dst : List Char)
    (fileOpsRename : List Char → List Char → DriverCall α) : DriverCall α :=
  driverRenameItem st src dst fileOpsRename

/-- `WebDAVStorageDriver.move` (AtomicCapable): delegates to
`renameItem`. -/
def driverMove {α : Type} (st : WebDAVDriverState) (src dst : List Char)
    (fileOpsRename : List Char → List Char → DriverCall α) : DriverCall α :=
  driverRenameItem st src dst fileOpsRename

/-- `WebDAVStorageDriver.copyItem`: guard, normalize both paths as files,
delegate to `fileOps.copyItem`. -/
def driverCopyItem {α : Type} (st : WebDAVDriverState) (src dst : List Char)
    (fileOpsCopy : List Char → List Char → DriverCall α) : DriverCall α :=
  if st.initialized then
    fileOpsCopy (normalizeWebDAVPath src false) (normalizeWebDAVPath dst false)
  else (.error notInitializedError, [])

/-- `WebDAVStorageDriver.copy` (AtomicCapable): delegates to `copyItem`. -/
def driverCopy {α : Type} (st : WebDAVDriverState) (src dst : List Char)
    (fileOpsCopy : List Char → List Char → DriverCall α) : DriverCall α :=
  driverCopyItem st src dst fileOpsCopy

/-- `WebDAVStorageDriver.updateFile`: guard, normalize as file, delegate to
`fileOps.updateFile`. -/
def driverUpdateFile {α : Type} (st : WebDAVDriverState) (path : List Char)
    (fileOpsUpdate : List Char → DriverCall α) : DriverCall α :=
  if st.initialized then fileOpsUpdate (normalizeWebDAVPath path false)
  else (.error notInitializedError, [])

/-- `WebDAVStorageDriver.exists`: guard, normalize as file, delegate to
`fileOps.exists`. -/
def driverExists {α : Type} (st : WebDAVDriverState) (path : List Char)
    (fileOpsExists : List Char → DriverCall α) : DriverCall α :=
  if st.initialized then fileOpsExists (normalizeWebDAVPath path false)
  else (.error notInitializedError, [])

/-- `WebDAVStorageDriver.batchRemoveItems`: guard, normalize every path as
a file, delegate to `batchOps.batchRemoveItems`. -/
def driverBatchRemoveItems {α : Type} (st : WebDAVDriverState)
    (paths : List (List Char))
    (batchOpsRemove : List (List Char) → DriverCall α) : DriverCall α :=
  if st.initialized then
    batchOpsRemove (paths.map (fun p => normalizeWebDAVPath p false))
  else (.error notInitializedError, [])

/-- `WebDAVStorageDriver.batchCopyItems`: guard, normalize both paths of
every item as files, delegate to `batchOps.batchCopyItems`. -/
def driverBatchCopyItems {α : Type} (st : WebDAVDriverState)
    (items : List (List Char × List Char))
    (batchOpsCopy : List (List Char × List Char) → DriverCall α) : DriverCall α :=
  if st.initialized then
    batchOpsCopy (items.map (fun it =>
      (normalizeWebDAVPath it.1 false, normalizeWebDAVPath it.2 false)))
  else (.error notInitializedError, [])


@[simp] theorem noDoubleSlash_nil : NoDoubleSlash [] := trivial

@[simp] theorem noDoubleSlash_singleton (c : Char) : NoDoubleSlash [c] := trivial

theorem noDoubleSlash_cons_cons {a b : Char} {l : List Char} :
    NoDoubleSlash (a :: b :: l) ↔ ¬(a = '/' ∧ b = '/') ∧ NoDoubleSlash (b :: l) :=
  Iff.rfl

theorem collapseSlashes_ne_nil : ∀ {l : List Char}, l ≠ [] → collapseSlashes l ≠ []
  | [], h => absurd rfl h
  | [c], _ => by simp [collapseSlashes]
  | a :: b :: rest, _ => by
    unfold collapseSlashes
    split
    · exact collapseSlashes_ne_nil (by simp)
    · simp

theorem collapseSlashes_head? : ∀ (l : List Char), (collapseSlashes l).head? = l.head?
  | [] => rfl
  | [_] => rfl
  | a :: b :: rest => by
    unfold collapseSlashes
    split
    · rename_i h
      rw [collapseSlashes_head? (b :: rest)]
      simp [h.1, h.2]
    · simp

theorem collapseSlashes_getLast? : ∀ (l : List Char),
    (collapseSlashes l).getLast? = l.getLast?
  | [] => rfl
  | [_] => rfl
  | a :: b :: rest => by
    unfold collapseSlashes
    split
    · rw [collapseSlashes_getLast? (b :: rest), List.getLast?_cons_cons]
    · cases hcb : collapseSlashes (b :: rest) with
      | nil => exact absurd hcb (collapseSlashes_ne_nil (by simp))
      | cons x xs =>
        rw [List.getLast?_cons_cons, ← hcb, collapseSlashes_getLast? (b :: rest),
          List.getLast?_cons_cons]

theorem noDoubleSlash_collapseSlashes : ∀ (l : List Char), NoDoubleSlash (collapseSlashes l)
  | [] => trivial
  | [_] => trivial
  | a :: b :: rest => by
    unfold collapseSlashes
    split
    · exact noDoubleSlash_collapseSlashes (b :: rest)
    · rename_i hab
      have ih := noDoubleSlash_collapseSlashes (b :: rest)
      cases hcb : collapseSlashes (b :: rest) with
      | nil => exact absurd hcb (collapseSlashes_ne_nil (by simp))
      | cons x xs =>
        have hx : x = b := by
          have h1 := collapseSlashes_head? (b :: rest)
          rw [hcb] at h1
          simpa using h1
        subst hx
        rw [noDoubleSlash_cons_cons]
        exact ⟨hab, by rw [← hcb]; exact ih⟩

theorem collapseSlashes_of_noDoubleSlash :
    ∀ {l : List Char}, NoDoubleSlash l → collapseSlashes l = l
  | [], _ => rfl
  | [_], _ => rfl
  | a :: b :: rest, h => by
    rw [noDoubleSlash_cons_cons] at h
    unfold collapseSlashes
    rw [if_neg h.1, collapseSlashes_of_noDoubleSlash h.2]

theorem noDoubleSlash_append_slash : ∀ {l : List Char}, NoDoubleSlash l →
    l.getLast? ≠ some '/' → NoDoubleSlash (l ++ ['/'])
  | [], _, _ => trivial
  | [c], _, h => by
    simp only [List.getLast?_singleton, ne_eq, Option.some.injEq] at h
    simpa [noDoubleSlash_cons_cons] using h
  | a :: b :: rest, hnd, h => by
    rw [noDoubleSlash_cons_cons] at hnd
    rw [List.getLast?_cons_cons] at h
    rw [List.cons_append, List.cons_append, noDoubleSlash_cons_cons]
    exact ⟨hnd.1, noDoubleSlash_append_slash hnd.2 h⟩

theorem noDoubleSlash_dropLast : ∀ {l : List Char}, NoDoubleSlash l →
    NoDoubleSlash l.dropLast
  | [], _ => trivial
  | [_], _ => trivial
  | [_, _], _ => trivial
  | a :: b :: c :: rest, h => by
    rw [noDoubleSlash_cons_cons] at h
    show NoDoubleSlash (a :: (b :: c :: rest).dropLast)
    have h2 := noDoubleSlash_dropLast h.2
    revert h2
    show NoDoubleSlash (b :: (c :: rest).dropLast) →
      NoDoubleSlash (a :: b :: (c :: rest).dropLast)
    intro h2
    rw [noDoubleSlash_cons_cons]
    exact ⟨h.1, h2⟩

theorem dropLast_getLast?_ne_slash : ∀ {l : List Char}, NoDoubleSlash l →
    l.getLast? = some '/' → 2 ≤ l.length → l.dropLast.getLast? ≠ some '/'
  | [], _, _, hlen => by simp at hlen
  | [_], _, _, hlen => by simp at hlen
  | [a, b], hnd, hlast, _ => by
    rw [noDoubleSlash_cons_cons] at hnd
    simp only [List.getLast?_cons_cons, List.getLast?_singleton, Option.some.injEq] at hlast
    simp only [List.dropLast, List.getLast?_singleton, ne_eq, Option.some.injEq]
    exact fun ha => hnd.1 ⟨ha, hlast⟩
  | a :: b :: c :: rest, hnd, hlast, _ => by
    rw [noDoubleSlash_cons_cons] at hnd
    rw [List.getLast?_cons_cons] at hlast
    have ih := dropLast_getLast?_ne_slash hnd.2 hlast (by simp)
    show (a :: (b :: c :: rest).dropLast).getLast? ≠ some '/'
    have hne : (b :: c :: rest).dropLast ≠ [] := by
      show b :: (c :: rest).dropLast ≠ []
      simp
    cases hd : (b :: c :: rest).dropLast with
    | nil => exact absurd hd hne
    | cons x xs =>
      rw [List.getLast?_cons_cons, ← hd]
      exact ih

theorem head?_slash_cons {l : List Char} (h : l.head? = some '/') :
    ∃ tl, l = '/' :: tl := by
  cases l with
  | nil => simp at h
  | cons x xs =>
    simp only [List.head?_cons, Option.some.injEq] at h
    exact ⟨xs, by rw [h]⟩

theorem normalizeWebDAVPath_spec (p : List Char) (d : Bool) :
    normalizeWebDAVPath p d ≠ [] ∧ (normalizeWebDAVPath p d).head? = some '/' ∧
      NoDoubleSlash (normalizeWebDAVPath p d) ∧
      (d = true → (normalizeWebDAVPath p d).getLast? = some '/') ∧
      (d = false → (normalizeWebDAVPath p d).getLast? = some '/' →
        normalizeWebDAVPath p d = ['/']) := by
  by_cases hp : p = []
  · subst hp
    have h1 : normalizeWebDAVPath [] d = ['/'] := by simp [normalizeWebDAVPath]
    rw [h1]
    refine ⟨by simp, by simp, trivial, fun _ => by simp, fun _ _ => rfl⟩
  · unfold normalizeWebDAVPath
    rw [if_neg hp]
    simp only []
    set np0 : List Char := if p.head? = some '/' then p else '/' :: p with hnp0
    have hne0 : np0 ≠ [] := by
      rw [hnp0]; split <;> simp [hp]
    have hhead0 : np0.head? = some '/' := by
      rw [hnp0]; split
      · assumption
      · rfl
    set np1 : List Char := collapseSlashes np0 with hnp1
    have hne1 : np1 ≠ [] := collapseSlashes_ne_nil hne0
    have hhead1 : np1.head? = some '/' := by rw [hnp1, collapseSlashes_head?]; exact hhead0
    have hnd1 : NoDoubleSlash np1 := noDoubleSlash_collapseSlashes np0
    obtain ⟨tl1, htl1⟩ := head?_slash_cons hhead1
    by_cases h2 : d = true ∧ ¬np1.getLast? = some '/'
    · rw [if_pos h2]
      have hlast2 : (np1 ++ ['/']).getLast? = some '/' := by
        rw [List.getLast?_concat]
      have hne2 : np1 ++ ['/'] ≠ [] := by simp
      have hhead2 : (np1 ++ ['/']).head? = some '/' := by
        rw [htl1]; rfl
      have hnd2 : NoDoubleSlash (np1 ++ ['/']) := noDoubleSlash_append_slash hnd1 h2.2
      rw [if_neg (by rintro ⟨hd, -⟩; rw [h2.1] at hd; exact Bool.noConfusion hd)]
      exact ⟨hne2, hhead2, hnd2, fun _ => hlast2,
        fun hd => by rw [h2.1] at hd; exact Bool.noConfusion hd⟩
    · rw [if_neg h2]
      by_cases h3 : d = false ∧ np1.getLast? = some '/' ∧ ¬np1 = ['/']
      · rw [if_pos h3]
        have htlne : tl1 ≠ [] := by
          intro hnil
          exact h3.2.2 (by rw [htl1, hnil])
        have hlen : 2 ≤ np1.length := by
          rw [htl1]
          cases tl1 with
          | nil => exact absurd rfl htlne
          | cons y ys => simp
        have hdl : np1.dropLast.getLast? ≠ some '/' :=
          dropLast_getLast?_ne_slash hnd1 h3.2.1 hlen
        have hdrop : np1.dropLast = '/' :: tl1.dropLast := by
          rw [htl1]
          cases tl1 with
          | nil => exact absurd rfl htlne
          | cons y ys => rfl
        refine ⟨by rw [hdrop]; simp, by rw [hdrop]; rfl,
          noDoubleSlash_dropLast hnd1, fun hd => ?_, fun _ hl => absurd hl hdl⟩
        rw [h3.1] at hd
        exact Bool.noConfusion hd
      · rw [if_neg h3]
        refine ⟨hne1, hhead1, hnd1, fun hd => ?_, fun hd hl => ?_⟩
        · by_contra hl
          exact h2 ⟨hd, hl⟩
        · by_contra hroot
          exact h3 ⟨hd, hl, hroot⟩

/-- If a list already satisfies all the invariants that
`normalizeWebDAVPath` establishes, normalizing it again leaves it
unchanged. -/
theorem normalizeWebDAVPath_fixed {r : List Char} (d : Bool) (hne : r ≠ [])
    (hhead : r.head? = some '/') (hnd : NoDoubleSlash r)
    (hdir : d = true → r.getLast? = some '/')
    (hfile : d = false → r.getLast? = some '/' → r = ['/']) :
    normalizeWebDAVPath r d = r := by
  unfold normalizeWebDAVPath
  rw [if_neg hne]
  simp only []
  rw [if_pos hhead, collapseSlashes_of_noDoubleSlash hnd]
  cases d with
  | true =>
    have hin : (if true = true ∧ ¬r.getLast? = some '/' then r ++ ['/'] else r) = r :=
      if_neg (by rintro ⟨-, hl⟩; exact hl (hdir rfl))
    rw [hin]
    rw [if_neg (by rintro ⟨hd, -⟩; exact absurd hd (by decide))]
  | false =>
    have hin : (if false = true ∧ ¬r.getLast? = some '/' then r ++ ['/'] else r) = r :=
      if_neg (by rintro ⟨hd, -⟩; exact absurd hd (by decide))
    rw [hin]
    rw [if_neg (by rintro ⟨-, hl, hroot⟩; exact hroot (hfile rfl hl))]

/-! ## Split/join lemmas -/

theorem splitOnSlash_cons (c : Char) (cs : List Char) :
    splitOnSlash (c :: cs) = if c = '/' then [] :: splitOnSlash cs
      else match splitOnSlash cs with | [] => [[c]] | s :: rest => (c :: s) :: rest := rfl

theorem splitOnSlash_ne_nil : ∀ (l : List Char), splitOnSlash l ≠ []
  | [] => by simp [splitOnSlash]
  | c :: cs => by
    unfold splitOnSlash
    split
    · simp
    · split <;> simp

theorem joinSlash_cons_cons (c : Char) (s : List Char) (rest : List (List Char)) :
    joinSlash ((c :: s) :: rest) = c :: joinSlash (s :: rest) := by
  cases rest with
  | nil => rfl
  | cons t ts => rfl

theorem joinSlash_splitOnSlash : ∀ (l : List Char), joinSlash (splitOnSlash l) = l
  | [] => rfl
  | c :: cs => by
    unfold splitOnSlash
    by_cases hc : c = '/'
    · rw [if_pos hc]
      cases hs : splitOnSlash cs with
      | nil => exact absurd hs (splitOnSlash_ne_nil cs)
      | cons s rest =>
        show joinSlash ([] :: s :: rest) = c :: cs
        show ([] : List Char) ++ '/' :: joinSlash (s :: rest) = c :: cs
        rw [List.nil_append, hc, ← hs, joinSlash_splitOnSlash cs]
    · rw [if_neg hc]
      cases hs : splitOnSlash cs with
      | nil => exact absurd hs (splitOnSlash_ne_nil cs)
      | cons s rest =>
        rw [joinSlash_cons_cons, ← hs, joinSlash_splitOnSlash cs]

theorem splitOnSlash_of_no_slash : ∀ {s : List Char}, '/' ∉ s → splitOnSlash s = [s]
  | [], _ => rfl
  | c :: cs, h => by
    unfold splitOnSlash
    rw [if_neg (by intro hc; exact h (hc ▸ List.mem_cons_self c cs)),
      splitOnSlash_of_no_slash (fun hm => h (List.mem_cons_of_mem c hm))]

theorem splitOnSlash_append_slash : ∀ {s : List Char}, '/' ∉ s → ∀ (t : List Char),
    splitOnSlash (s ++ '/' :: t) = s :: splitOnSlash t
  | [], _, t => by
    show splitOnSlash ('/' :: t) = [] :: splitOnSlash t
    rw [splitOnSlash_cons, if_pos rfl]
  | c :: cs, h, t => by
    show splitOnSlash (c :: (cs ++ '/' :: t)) = (c :: cs) :: splitOnSlash t
    rw [splitOnSlash_cons,
      if_neg (by intro hc; exact h (hc ▸ List.mem_cons_self c cs)),
      splitOnSlash_append_slash (fun hm => h (List.mem_cons_of_mem c hm)) t]

theorem splitOnSlash_joinSlash : ∀ {xs : List (List Char)}, xs ≠ [] →
    (∀ s ∈ xs, '/' ∉ s) → splitOnSlash (joinSlash xs) = xs
  | [], h, _ => absurd rfl h
  | [s], _, hs => by
    show splitOnSlash s = [s]
    exact splitOnSlash_of_no_slash (hs s (List.mem_singleton_self s))
  | s :: s' :: rest, _, hs => by
    show splitOnSlash (s ++ '/' :: joinSlash (s' :: rest)) = s :: s' :: rest
    rw [splitOnSlash_append_slash (hs s (List.mem_cons_self s _)) _,
      splitOnSlash_joinSlash (by simp) (fun u hu => hs u (List.mem_cons_of_mem s hu))]

/-! ## Percent-encoding round trip -/

theorem hexVal_hexUpper {m : Nat} (h : m < 16) : hexVal (hexUpper m) = some m := by
  interval_cases m <;> rfl

theorem contByteVal_encode {b : Nat} (h1 : 128 ≤ b) (h2 : b ≤ 191) :
    contByteVal (hexUpper (b / 16)) (hexUpper (b % 16)) = some (b - 128) := by
  unfold contByteVal
  rw [hexVal_hexUpper (by omega), hexVal_hexUpper (by omega)]
  simp only []
  rw [if_pos (by omega)]
  exact congrArg some (by omega)

theorem decodeEscape_byte1 {b : Nat} (h : b ≤ 127) (t : List Char) :
    decodeEscape (hexUpper (b / 16) :: hexUpper (b % 16) :: t) = some (b, 2) := by
  simp only [decodeEscape]
  rw [hexVal_hexUpper (by omega), hexVal_hexUpper (by omega)]
  simp only []
  rw [show 16 * (b / 16) + b % 16 = b from by omega, if_pos h]

theorem decodeEscape_byte2 {b1 b2 : Nat} (ha : 194 ≤ b1) (ha' : b1 ≤ 223)
    (hb : 128 ≤ b2) (hb' : b2 ≤ 191) (t : List Char) :
    decodeEscape (hexUpper (b1 / 16) :: hexUpper (b1 % 16) ::
        '%' :: hexUpper (b2 / 16) :: hexUpper (b2 % 16) :: t) =
      some ((b1 - 192) * 64 + (b2 - 128), 5) := by
  simp only [decodeEscape]
  rw [hexVal_hexUpper (by omega), hexVal_hexUpper (by omega)]
  simp only []
  rw [show 16 * (b1 / 16) + b1 % 16 = b1 from by omega,
    if_neg (by omega), if_pos ⟨ha, ha'⟩, if_pos trivial, contByteVal_encode hb hb']

theorem decodeEscape_byte3 {b1 b2 b3 : Nat} (ha : 224 ≤ b1) (ha' : b1 ≤ 239)
    (hb : 128 ≤ b2) (hb' : b2 ≤ 191) (hc : 128 ≤ b3) (hc' : b3 ≤ 191)
    (hn : 2048 ≤ (b1 - 224) * 4096 + (b2 - 128) * 64 + (b3 - 128))
    (hs : ¬(55296 ≤ (b1 - 224) * 4096 + (b2 - 128) * 64 + (b3 - 128) ∧
      (b1 - 224) * 4096 + (b2 - 128) * 64 + (b3 - 128) ≤ 57343)) (t : List Char) :
    decodeEscape (hexUpper (b1 / 16) :: hexUpper (b1 % 16) ::
        '%' :: hexUpper (b2 / 16) :: hexUpper (b2 % 16) ::
        '%' :: hexUpper (b3 / 16) :: hexUpper (b3 % 16) :: t) =
      some ((b1 - 224) * 4096 + (b2 - 128) * 64 + (b3 - 128), 8) := by
  simp only [decodeEscape]
  rw [hexVal_hexUpper (by omega), hexVal_hexUpper (by omega)]
  simp only []
  rw [show 16 * (b1 / 16) + b1 % 16 = b1 from by omega,
    if_neg (by omega), if_neg (by omega), if_pos ⟨ha, ha'⟩, if_pos ⟨trivial, trivial⟩,
    contByteVal_encode hb hb', contByteVal_encode hc hc']
  simp only []
  rw [if_pos ⟨hn, hs⟩]

theorem decodeEscape_byte4 {b1 b2 b3 b4 : Nat} (ha : 240 ≤ b1) (ha' : b1 ≤ 244)
    (hb : 128 ≤ b2) (hb' : b2 ≤ 191) (hc : 128 ≤ b3) (hc' : b3 ≤ 191)
    (hd : 128 ≤ b4) (hd' : b4 ≤ 191)
    (hn : 65536 ≤ (b1 - 240) * 262144 + (b2 - 128) * 4096 + (b3 - 128) * 64 + (b4 - 128))
    (hn' : (b1 - 240) * 262144 + (b2 - 128) * 4096 + (b3 - 128) * 64 + (b4 - 128) ≤ 1114111)
    (t : List Char) :
    decodeEscape (hexUpper (b1 / 16) :: hexUpper (b1 % 16) ::
        '%' :: hexUpper (b2 / 16) :: hexUpper (b2 % 16) ::
        '%' :: hexUpper (b3 / 16) :: hexUpper (b3 % 16) ::
        '%' :: hexUpper (b4 / 16) :: hexUpper (b4 % 16) :: t) =
      some ((b1 - 240) * 262144 + (b2 - 128) * 4096 + (b3 - 128) * 64 + (b4 - 128), 11) := by
  simp only [decodeEscape]
  rw [hexVal_hexUpper (by omega), hexVal_hexUpper (by omega)]
  simp only []
  rw [show 16 * (b1 / 16) + b1 % 16 = b1 from by omega,
    if_neg (by omega), if_neg (by omega), if_neg (by omega), if_pos ⟨ha, ha'⟩,
    if_pos ⟨trivial, trivial, trivial⟩,
    contByteVal_encode hb hb', contByteVal_encode hc hc', contByteVal_encode hd hd']
  simp only []
  rw [if_pos ⟨hn, hn'⟩]

theorem char_toNat_valid (c : Char) :
    c.toNat < 55296 ∨ (57343 < c.toNat ∧ c.toNat < 1114112) := c.valid

theorem isUnreservedURI_ne_pct {c : Char} (h : isUnreservedURI c = true) :
    ¬c = '%' := by
  intro hc
  subst hc
  exact absurd h (by decide)

theorem isUnreservedURI_ne_slash {c : Char} (h : isUnreservedURI c = true) :
    ¬c = '/' := by
  intro hc
  subst hc
  exact absurd h (by decide)

theorem decodeURIComponentM_nil : decodeURIComponentM [] = some [] := by
  unfold decodeURIComponentM
  rfl

theorem decodeURIComponentM_cons (c : Char) (cs : List Char) :
    decodeURIComponentM (c :: cs) =
      if c = '%' then
        match decodeEscape cs with
        | some nk => (decodeURIComponentM (cs.drop nk.2)).map (fun t => Char.ofNat nk.1 :: t)
        | none => none
      else
        (decodeURIComponentM cs).map (fun t => c :: t) := by
  conv_lhs => unfold decodeURIComponentM

theorem decode_cons_not_pct {c : Char} (h : ¬c = '%') (cs : List Char) :
    decodeURIComponentM (c :: cs) = (decodeURIComponentM cs).map (fun t => c :: t) := by
  rw [decodeURIComponentM_cons, if_neg h]

theorem decode_encChar (c : Char) (t : List Char) :
    decodeURIComponentM (encChar c ++ t) =
      (decodeURIComponentM t).map (fun r => c :: r) := by
  unfold encChar
  by_cases hu : isUnreservedURI c = true
  · rw [if_pos hu]
    show decodeURIComponentM (c :: t) = _
    rw [decode_cons_not_pct (isUnreservedURI_ne_pct hu)]
  · rw [if_neg hu]
    have hv := char_toNat_valid c
    unfold utf8Bytes
    by_cases h1 : c.toNat < 128
    · rw [if_pos h1]
      show decodeURIComponentM
        ('%' :: hexUpper (c.toNat / 16) :: hexUpper (c.toNat % 16) :: t) = _
      rw [decodeURIComponentM_cons, if_pos rfl, decodeEscape_byte1 (by omega)]
      simp only [List.drop_succ_cons, List.drop_zero, Char.ofNat_toNat]
    · rw [if_neg h1]
      by_cases h2 : c.toNat < 2048
      · rw [if_pos h2]
        show decodeURIComponentM
          ('%' :: hexUpper ((192 + c.toNat / 64) / 16) :: hexUpper ((192 + c.toNat / 64) % 16) ::
           '%' :: hexUpper ((128 + c.toNat % 64) / 16) :: hexUpper ((128 + c.toNat % 64) % 16) ::
           t) = _
        rw [decodeURIComponentM_cons, if_pos rfl,
          decodeEscape_byte2 (by omega) (by omega) (by omega) (by omega)]
        simp only [List.drop_succ_cons, List.drop_zero]
        rw [show (192 + c.toNat / 64 - 192) * 64 + (128 + c.toNat % 64 - 128) = c.toNat from by
          omega]
        rw [Char.ofNat_toNat]
      · rw [if_neg h2]
        by_cases h3 : c.toNat < 65536
        · rw [if_pos h3]
          show decodeURIComponentM
            ('%' :: hexUpper ((224 + c.toNat / 4096) / 16) :: hexUpper ((224 + c.toNat / 4096) % 16) ::
             '%' :: hexUpper ((128 + c.toNat / 64 % 64) / 16) :: hexUpper ((128 + c.toNat / 64 % 64) % 16) ::
             '%' :: hexUpper ((128 + c.toNat % 64) / 16) :: hexUpper ((128 + c.toNat % 64) % 16) ::
             t) = _
          rw [decodeURIComponentM_cons, if_pos rfl,
            decodeEscape_byte3 (by omega) (by omega) (by omega) (by omega) (by omega) (by omega)
              (by omega) (by omega)]
          simp only [List.drop_succ_cons, List.drop_zero]
          rw [show (224 + c.toNat / 4096 - 224) * 4096 + (128 + c.toNat / 64 % 64 - 128) * 64 +
              (128 + c.toNat % 64 - 128) = c.toNat from by omega]
          rw [Char.ofNat_toNat]
        · rw [if_neg h3]
          show decodeURIComponentM
            ('%' :: hexUpper ((240 + c.toNat / 262144) / 16) :: hexUpper ((240 + c.toNat / 262144) % 16) ::
             '%' :: hexUpper ((128 + c.toNat / 4096 % 64) / 16) :: hexUpper ((128 + c.toNat / 4096 % 64) % 16) ::
             '%' :: hexUpper ((128 + c.toNat / 64 % 64) / 16) :: hexUpper ((128 + c.toNat / 64 % 64) % 16) ::
             '%' :: hexUpper ((128 + c.toNat % 64) / 16) :: hexUpper ((128 + c.toNat % 64) % 16) ::
             t) = _
          rw [decodeURIComponentM_cons, if_pos rfl,
            decodeEscape_byte4 (by omega) (by omega) (by omega) (by omega) (by omega) (by omega)
              (by omega) (by omega) (by omega) (by omega)]
          simp only [List.drop_succ_cons, List.drop_zero]
          rw [show (240 + c.toNat / 262144 - 240) * 262144 + (128 + c.toNat / 4096 % 64 - 128) * 4096 +
              (128 + c.toNat / 64 % 64 - 128) * 64 + (128 + c.toNat % 64 - 128) = c.toNat from by
            omega]
          rw [Char.ofNat_toNat]

theorem decode_encodeURIComponentM : ∀ (s : List Char),
    decodeURIComponentM (encodeURIComponentM s) = some s
  | [] => decodeURIComponentM_nil
  | c :: cs => by
    show decodeURIComponentM (encChar c ++ encodeURIComponentM cs) = _
    rw [decode_encChar, decode_encodeURIComponentM cs]
    rfl

theorem hexUpper_ne_slash {m : Nat} (h : m < 16) : hexUpper m ≠ '/' := by
  interval_cases m <;> decide

theorem utf8Bytes_le {n : Nat} (hn : n < 1114112) : ∀ b ∈ utf8Bytes n, b ≤ 255 := by
  intro b hb
  unfold utf8Bytes at hb
  split_ifs at hb <;> simp only [List.mem_cons, List.mem_singleton,
    List.not_mem_nil, or_false] at hb
  · omega
  · rcases hb with h | h <;> omega
  · rcases hb with h | h | h <;> omega
  · rcases hb with h | h | h | h <;> omega

theorem slash_not_mem_encChar (c : Char) : '/' ∉ encChar c := by
  unfold encChar
  by_cases hu : isUnreservedURI c = true
  · rw [if_pos hu]
    intro hm
    rw [List.mem_singleton] at hm
    exact isUnreservedURI_ne_slash hu hm.symm
  · rw [if_neg hu]
    intro hm
    rw [List.mem_flatten] at hm
    obtain ⟨l, hl, hcl⟩ := hm
    rw [List.mem_map] at hl
    obtain ⟨b, hb, hpb⟩ := hl
    have hble : b ≤ 255 := by
      have hv := char_toNat_valid c
      exact utf8Bytes_le (by omega) b hb
    subst hpb
    unfold percentByte at hcl
    rw [List.mem_cons, List.mem_cons] at hcl
    rcases hcl with h | h | h
    · exact absurd h.symm (by decide)
    · exact hexUpper_ne_slash (by omega) h.symm
    · rw [List.mem_singleton] at h
      exact hexUpper_ne_slash (by omega) h.symm

theorem slash_not_mem_encodeURIComponentM : ∀ (s : List Char),
    '/' ∉ encodeURIComponentM s
  | [] => by simp [encodeURIComponentM]
  | c :: cs => by
    show '/' ∉ encChar c ++ encodeURIComponentM cs
    rw [List.mem_append]
    rintro (h | h)
    · exact slash_not_mem_encChar c h
    · exact slash_not_mem_encodeURIComponentM cs h

theorem traverseOption_decode_encode : ∀ (xs : List (List Char)),
    traverseOption decodeURIComponentM (xs.map encodeURIComponentM) = some xs
  | [] => rfl
  | s :: rest => by
    show traverseOption decodeURIComponentM
      (encodeURIComponentM s :: rest.map encodeURIComponentM) = some (s :: rest)
    unfold traverseOption
    rw [decode_encodeURIComponentM, traverseOption_decode_encode rest]
    rfl

/-- C6: decoding after encoding is the identity on every path — in
particular on paths whose segments contain reserved characters such as
space, `#` and `%` — with `'/'` separators preserved by both functions and
each function applied exactly once per direction. -/
theorem decodeWebDAVPath_encodeWebDAVPath (p : List Char) :
    decodeWebDAVPath (encodeWebDAVPath p) = some p := by
  unfold decodeWebDAVPath encodeWebDAVPath
  rw [splitOnSlash_joinSlash
      (by
        intro hmap
        exact splitOnSlash_ne_nil p (List.map_eq_nil_iff.mp hmap))
      (by
        intro s hs
        rw [List.mem_map] at hs
        obtain ⟨u, _, hu⟩ := hs
        rw [← hu]
        exact slash_not_mem_encodeURIComponentM u),
    traverseOption_decode_encode, Option.map_some']
  rw [joinSlash_splitOnSlash]

/-! ## Claim theorems -/

/-- C1 (amended): `parseResponseItem` examines only the first `<d:propstat>`
element of a response — the result does not depend on any later propstat —
and whenever that first propstat carries a status line whose code is not
200 the response yields no descriptor, even if a later propstat carries
status 200.  (The claim as stated — select the first propstat *whose
status is 200* — fails; see the counterexample.) -/
theorem parseResponseItem_uses_first_propstat (vd : List Char → Bool) (r : ResponseXML) :
    parseResponseItem vd r =
      parseResponseItem vd { r with propstats := r.propstats.take 1 } ∧
    (∀ ps st, r.propstats.head? = some ps → ps.status = some st →
      ¬st = "200".toList → parseResponseItem vd r = none) := by
  obtain ⟨href, pss⟩ := r
  constructor
  · unfold parseResponseItem
    cases hb : parseResponseHref href with
    | none => rfl
    | some item =>
      simp only []
      cases pss with
      | nil => rfl
      | cons ps rest => rfl
  · intro ps st h1 h2 h3
    unfold parseResponseItem
    cases hb : parseResponseHref href with
    | none => rfl
    | some item =>
      simp only [] at h1 ⊢
      rw [h1]
      simp only [h2]
      rw [show (st == "200".toList) = false from beq_eq_false_iff_ne.mpr h3]
      rfl

theorem parseProperties_isDirectory (vd : List Char → Bool) (props : PropXML)
    (item0 : WDItem) :
    (parseProperties vd props item0).isDirectory =
      some (match props.resourcetype with
            | some rt => hasSubstr "<d:collection".toList rt
            | none => false) := by
  obtain ⟨rt, cl, lm, ct, et, cd, dn⟩ := props
  cases et <;> cases dn <;>
    simp only [parseProperties] <;>
    first
      | rfl
      | (split <;> rfl)

theorem parseProperties_size (vd : List Char → Bool) (props : PropXML) (item0 : WDItem) :
    (parseProperties vd props item0).size =
      some (match props.getcontentlength with
            | some s =>
              if s ≠ [] ∧ s.all isDigitChar then some (digitsToNat s)
              else
                if (match props.resourcetype with
                    | some rt => hasSubstr "<d:collection".toList rt
                    | none => false) then some 0 else none
            | none =>
              if (match props.resourcetype with
                  | some rt => hasSubstr "<d:collection".toList rt
                  | none => false) then some 0 else none) := by
  obtain ⟨rt, cl, lm, ct, et, cd, dn⟩ := props
  cases et <;> cases dn <;>
    simp only [parseProperties] <;>
    first
      | rfl
      | (split <;> rfl)

/-- C4 (amended): a descriptor marked as a collection has size 0 whenever
the entry carries no `getcontentlength` property with a nonempty all-digit
value; a server-supplied digit-valued `getcontentlength` overrides this
(see the counterexample). -/
theorem parseProperties_collection_default_size (vd : List Char → Bool) (props : PropXML)
    (item0 : WDItem)
    (hnolen : ∀ s, props.getcontentlength = some s → ¬(s ≠ [] ∧ s.all isDigitChar))
    (hdir : (parseProperties vd props item0).isDirectory = some true) :
    (parseProperties vd props item0).size = some (some 0) := by
  have hd := parseProperties_isDirectory vd props item0
  rw [hdir] at hd
  have hd' : (match props.resourcetype with
              | some rt => hasSubstr "<d:collection".toList rt
              | none => false) = true := (Option.some.inj hd).symm
  rw [parseProperties_size]
  cases hcl : props.getcontentlength with
  | none => rw [hd']; rfl
  | some s =>
    simp only []
    rw [if_neg (hnolen s hcl), hd']
    rfl

/-- C2: every item surviving the self-filter of
`WebDAVDirectoryOperations.listDirectory` has a normalized path different
from the normalized (directory) path of the queried collection, so the
returned listing never contains the collection's own self-descriptor. -/
theorem listDirectory_no_self_entry (path : List Char) (items : List WDItem) (it : WDItem)
    (hmem : it ∈ listDirectoryChildItems path items) :
    ¬normalizeWebDAVPath (jsHrefOrPath it) (it.isDirectory.getD false) =
      normalizeWebDAVPath path true := by
  unfold listDirectoryChildItems at hmem
  rw [List.mem_filter] at hmem
  have h2 := hmem.2
  simpa using h2

theorem batch_foldl_lengths {β E : Type} (step : (List E × List E) → β → (List E × List E))
    (hstep : ∀ acc b, ((step acc b).1.length + (step acc b).2.length) =
      acc.1.length + acc.2.length + 1) :
    ∀ (l : List β) (acc : List E × List E),
      ((l.foldl step acc).1.length + (l.foldl step acc).2.length) =
        acc.1.length + acc.2.length + l.length
  | [], acc => by simp
  | b :: bs, acc => by
    show ((bs.foldl step (step acc b)).1.length + (bs.foldl step (step acc b)).2.length) = _
    rw [batch_foldl_lengths step hstep bs (step acc b), hstep]
    simp only [List.length_cons]
    omega

theorem batchRemoveStep_lengths (del : List Char → FetchOutcome)
    (acc : List BatchRemoveEntry × List BatchRemoveEntry) (path : List Char) :
    ((batchRemoveStep del acc path).1.length + (batchRemoveStep del acc path).2.length) =
      acc.1.length + acc.2.length + 1 := by
  cases h : del path with
  | resp r =>
    by_cases hok : r.ok = true
    · simp only [batchRemoveStep, h, hok, if_true, List.length_append, List.length_cons,
        List.length_nil]
      omega
    · simp only [batchRemoveStep, h, hok, if_false, Bool.false_eq_true, List.length_append,
        List.length_cons, List.length_nil]
      omega
  | throw m =>
    simp only [batchRemoveStep, h, List.length_append, List.length_cons, List.length_nil]
    omega

theorem batchCopyStep_lengths (copy : List Char → List Char → FetchOutcome)
    (acc : List BatchPairEntry × List BatchPairEntry) (item : List Char × List Char) :
    ((batchCopyStep copy acc item).1.length + (batchCopyStep copy acc item).2.length) =
      acc.1.length + acc.2.length + 1 := by
  cases h : copy item.1 item.2 with
  | resp r =>
    by_cases hok : r.ok = true
    · simp only [batchCopyStep, h, hok, if_true, List.length_append, List.length_cons,
        List.length_nil]
      omega
    · simp only [batchCopyStep, h, hok, if_false, Bool.false_eq_true, List.length_append,
        List.length_cons, List.length_nil]
      omega
  | throw m =>
    simp only [batchCopyStep, h, List.length_append, List.length_cons, List.length_nil]
    omega

theorem batchMoveStep_lengths (move : List Char → List Char → FetchOutcome)
    (acc : List BatchPairEntry × List BatchPairEntry) (item : List Char × List Char) :
    ((batchMoveStep move acc item).1.length + (batchMoveStep move acc item).2.length) =
      acc.1.length + acc.2.length + 1 := by
  cases h : move item.1 item.2 with
  | resp r =>
    by_cases hok : r.ok = true
    · simp only [batchMoveStep, h, hok, if_true, List.length_append, List.length_cons,
        List.length_nil]
      omega
    · simp only [batchMoveStep, h, hok, if_false, Bool.false_eq_true, List.length_append,
        List.length_cons, List.length_nil]
      omega
  | throw m =>
    simp only [batchMoveStep, h, List.length_append, List.length_cons, List.length_nil]
    omega

/-- A percent-free string decodes to itself. -/
theorem decodeURIComponentM_no_pct : ∀ {s : List Char}, '%' ∉ s →
    decodeURIComponentM s = some s
  | [], _ => decodeURIComponentM_nil
  | c :: cs, h => by
    rw [decode_cons_not_pct (fun hc => h (hc ▸ List.mem_cons_self c cs)),
      decodeURIComponentM_no_pct (fun hm => h (List.mem_cons_of_mem c hm))]
    rfl

/-- C3: for each of `batchRemoveItems`, `batchCopyItems` and
`batchMoveItems`, on any input list of size N and any outcome of the
per-item client calls, `successCount + errorCount = N = total`, and the
overall `success` flag is true iff the `errors` list is empty. -/
theorem batch_operations_count_invariant
    (del : List Char → FetchOutcome) (copy move : List Char → List Char → FetchOutcome)
    (paths : List (List Char)) (citems mitems : List (List Char × List Char)) :
    ((batchRemoveItems del paths).successCount + (batchRemoveItems del paths).errorCount =
        paths.length ∧
      (batchRemoveItems del paths).total = paths.length ∧
      ((batchRemoveItems del paths).success = true ↔
        (batchRemoveItems del paths).errors = [])) ∧
    ((batchCopyItems copy citems).successCount + (batchCopyItems copy citems).errorCount =
        citems.length ∧
      (batchCopyItems copy citems).total = citems.length ∧
      ((batchCopyItems copy citems).success = true ↔
        (batchCopyItems copy citems).errors = [])) ∧
    ((batchMoveItems move mitems).successCount + (batchMoveItems move mitems).errorCount =
        mitems.length ∧
      (batchMoveItems move mitems).total = mitems.length ∧
      ((batchMoveItems move mitems).success = true ↔
        (batchMoveItems move mitems).errors = [])) := by
  refine ⟨⟨?_, rfl, ?_⟩, ⟨?_, rfl, ?_⟩, ⟨?_, rfl, ?_⟩⟩
  · have h := batch_foldl_lengths (batchRemoveStep del) (batchRemoveStep_lengths del)
      paths ([], [])
    simp only [List.length_nil] at h
    exact h.trans (by omega)
  · simp [batchRemoveItems, List.length_eq_zero]
  · have h := batch_foldl_lengths (batchCopyStep copy) (batchCopyStep_lengths copy)
      citems ([], [])
    simp only [List.length_nil] at h
    exact h.trans (by omega)
  · simp [batchCopyItems, List.length_eq_zero]
  · have h := batch_foldl_lengths (batchMoveStep move) (batchMoveStep_lengths move)
      mitems ([], [])
    simp only [List.length_nil] at h
    exact h.trans (by omega)
  · simp [batchMoveItems, List.length_eq_zero]

/-- C7 (amended): `uploadFile` with a string payload and no contentType
option sends `Content-Type: text/plain` and a `Content-Length` equal to the
UTF-8 byte length of the encoded string (not its character count); a
*non-empty* explicit contentType option always overrides the inferred type
(an empty string is falsy in JavaScript and does not override; see the
counterexample). -/
theorem uploadFile_text_inference_and_override (path s : List Char) :
    uploadHeaders (deriveUploadParams path (.str s)) none [] =
      [("Content-Type", "text/plain"), ("Content-Length", Nat.repr (utf8ByteLength s))] ∧
    (∀ (payload : UploadPayload) (ct : String) (resp : ResponseM),
      ¬ct = "" → resp.ok = true →
      (uploadFile path payload (some ct) resp).map (fun res => res.contentType) =
        .ok ct) := by
  constructor
  · rfl
  · intro payload ct resp hct hok
    unfold uploadFile
    simp only [applyContentTypeOption, if_neg hct, hok, Bool.not_true, Bool.false_eq_true,
      if_false, Except.map]

/-- C8 (amended): `updateFile` raises an INTERNAL_ERROR `HTTPException`
on every non-2xx PUT response, and on a 2xx response returns success with
`size` equal to the JavaScript string length (UTF-16 code-unit count) of
the content — not the UTF-8 byte count actually written (see the
counterexample). -/
theorem updateFile_internal_error_and_size (resp : ResponseM) (path content : List Char) :
    (resp.ok = false →
      updateFile resp path content =
        .error ⟨.INTERNAL_ERROR, "更新文件失败: " ++ resp.statusText⟩) ∧
    (resp.ok = true →
      updateFile resp path content =
        .ok { success := true, message := "文件更新成功", path := path,
              size := jsStringLength content }) := by
  constructor <;> intro h <;> simp [updateFile, h]

/-- C9: the diagnostic summary's overall success equals
`connect && auth && read`, independent of the write stage; in particular a
run with connect, auth and read successful but write failed is overall
successful with the partial-success (write unavailable) message. -/
theorem diagnostic_overall_success_ignores_write (t : WebDAVTestStages) :
    (generateWebDAVTestSummary t).overallSuccess = (t.connect && t.auth && t.read) ∧
    (t.connect = true → t.auth = true → t.read = true → t.write = false →
      (generateWebDAVTestSummary t).overallSuccess = true ∧
      (generateWebDAVTestSummary t).message =
        "WebDAV配置测试部分成功 (连接、认证、读取权限可用，写入权限不可用)") := by
  obtain ⟨c, a, r, w⟩ := t
  refine ⟨rfl, ?_⟩
  rintro rfl rfl rfl rfl
  exact ⟨rfl, rfl⟩

/-- C10: every facade operation of `WebDAVStorageDriver` invoked on an
uninitialized driver returns the `WebDAV存储驱动未初始化` INTERNAL_ERROR
exception and issues no request to the remote server, and a successful
`initialize()` sets the `initialized` flag (which no operation ever
clears). -/
theorem driver_operations_require_initialization {α : Type} (st : WebDAVDriverState)
    (h : st.initialized = false) (p q : List Char) (paths : List (List Char))
    (items : List (List Char × List Char))
    (f u : List Char → DriverCall α) (m2 c2 : List Char → List Char → DriverCall α)
    (b1 : List (List Char) → DriverCall α)
    (b2 : List (List Char × List Char) → DriverCall α) :
    driverList st p f = (.error notInitializedError, []) ∧
    driverListDirectory st p f = (.error notInitializedError, []) ∧
    driverGet st p f = (.error notInitializedError, []) ∧
    driverDownloadFile st p f = (.error notInitializedError, []) ∧
    driverGetInfo st p f = (.error notInitializedError, []) ∧
    driverStat st p f = (.error notInitializedError, []) ∧
    driverGetFileInfo st p f = (.error notInitializedError, []) ∧
    driverPut st p u = (.error notInitializedError, []) ∧
    driverUploadFile st p u = (.error notInitializedError, []) ∧
    driverMkdir st p f = (.error notInitializedError, []) ∧
    driverCreateDirectory st p f = (.error notInitializedError, []) ∧
    driverRename st p q m2 = (.error notInitializedError, []) ∧
    driverMove st p q m2 = (.error notInitializedError, []) ∧
    driverRenameItem st p q m2 = (.error notInitializedError, []) ∧
    driverCopy st p q c2 = (.error notInitializedError, []) ∧
    driverCopyItem st p q c2 = (.error notInitializedError, []) ∧
    driverUpdateFile st p f = (.error notInitializedError, []) ∧
    driverExists st p f = (.error notInitializedError, []) ∧
    driverBatchRemoveItems st paths b1 = (.error notInitializedError, []) ∧
    driverBatchCopyItems st items b2 = (.error notInitializedError, []) ∧
    (driverInitialize st).initialized = true := by
  simp [driverList, driverListDirectory, driverGet, driverDownloadFile, driverGetInfo,
    driverStat, driverGetFileInfo, driverPut, driverUploadFile, driverMkdir,
    driverCreateDirectory, driverRename, driverMove, driverRenameItem, driverCopy,
    driverCopyItem, driverUpdateFile, driverExists, driverBatchRemoveItems,
    driverBatchCopyItems, driverInitialize, h]

/-- C1 counterexample: a response whose first propstat has status 404 and
whose second propstat has status 200 (with properties) is dropped entirely
by `parseResponseItem`, although a propstat with status 200 exists in it —
refuting the claim that the parser selects the first propstat whose status
line is 200. -/
theorem parseResponseItem_drops_response_with_later_200_cex :
    parseResponseItem (fun _ => true)
        { href := some "/docs/a.txt".toList,
          propstats := [{ status := some "404".toList, prop := none },
                        { status := some "200".toList,
                          prop := some { getcontentlength := some "120".toList } }] } =
      none ∧
    List.any [({ status := some "404".toList, prop := none } : PropstatXML),
              { status := some "200".toList,
                prop := some { getcontentlength := some "120".toList } }]
        (fun ps => ps.status == some "200".toList) = true := by
  constructor
  · have hdec : decodeURIComponentM (trimM "/docs/a.txt".toList) =
        some "/docs/a.txt".toList := by
      rw [show trimM "/docs/a.txt".toList = "/docs/a.txt".toList from by decide]
      exact decodeURIComponentM_no_pct (by decide)
    simp only [parseResponseItem, parseResponseHref, hdec]
    rfl
  · decide

/-- C1 witness: concrete application of the amended theorem. -/
theorem parseResponseItem_first_propstat_witness :
    parseResponseItem (fun _ => true)
        { href := none,
          propstats := [{ status := some "403".toList, prop := none }] } = none :=
  (parseResponseItem_uses_first_propstat (fun _ => true)
      { href := none,
        propstats := [{ status := some "403".toList, prop := none }] }).2
    { status := some "403".toList, prop := none } "403".toList rfl rfl (by decide)

/-- C2 witness: concrete application to a listing of `/docs/` containing
the self-descriptor and one child file. -/
theorem listDirectory_no_self_entry_witness :
    ¬normalizeWebDAVPath
        (jsHrefOrPath { href := some "/docs/a.txt".toList,
                        path := some "/docs/a.txt".toList,
                        isDirectory := some false })
        (({ href := some "/docs/a.txt".toList,
            path := some "/docs/a.txt".toList,
            isDirectory := some false } : WDItem).isDirectory.getD false) =
      normalizeWebDAVPath "/docs/".toList true :=
  listDirectory_no_self_entry "/docs/".toList
    [{ href := some "/docs/".toList, path := some "/docs/".toList, isDirectory := some true },
     { href := some "/docs/a.txt".toList,
       path := some "/docs/a.txt".toList,
       isDirectory := some false }]
    { href := some "/docs/a.txt".toList,
      path := some "/docs/a.txt".toList,
      isDirectory := some false }
    (by decide)

/-- C4 counterexample: a collection entry carrying
`getcontentlength = 42` parses with `isDirectory = true` and `size = 42`,
refuting `isCollection ⇒ size = 0` as stated. -/
theorem parseProperties_collection_nonzero_size_cex :
    (parseProperties (fun _ => true)
        { resourcetype := some "<d:collection/>".toList,
          getcontentlength := some "42".toList } {}).isDirectory = some true ∧
    (parseProperties (fun _ => true)
        { resourcetype := some "<d:collection/>".toList,
          getcontentlength := some "42".toList } {}).size = some (some 42) ∧
    ¬(some (some 42) : Option (Option Nat)) = some (some 0) := by
  refine ⟨by decide, by decide, by decide⟩

/-- C4 witness: concrete application of the amended theorem. -/
theorem parseProperties_collection_default_size_witness :
    (parseProperties (fun _ => true)
        { resourcetype := some "<d:collection/>".toList } {}).size = some (some 0) :=
  parseProperties_collection_default_size (fun _ => true)
    { resourcetype := some "<d:collection/>".toList } {}
    (fun _ hs => Option.noConfusion hs) (by decide)

/-- C5: path normalization is idempotent — for every path and fixed
collection flag, `normalizeWebDAVPath (normalizeWebDAVPath p c) c =
normalizeWebDAVPath p c`. -/
theorem normalizeWebDAVPath_idempotent (p : List Char) (c : Bool) :
    normalizeWebDAVPath (normalizeWebDAVPath p c) c = normalizeWebDAVPath p c := by
  obtain ⟨hne, hhead, hnd, hdir, hfile⟩ := normalizeWebDAVPath_spec p c
  exact normalizeWebDAVPath_fixed c hne hhead hnd hdir hfile

/-- C7 counterexample: an explicit but empty contentType option does not
override the inferred type — `if (options.contentType)` is a truthiness
test — so the claim that an explicit option *always* overrides fails. -/
theorem uploadFile_empty_contentType_not_overriding_cex :
    (uploadFile "/x.txt".toList (.str "hi".toList) (some "")
        { status := 201, statusText := "Created" }).map (fun res => res.contentType) =
      .ok "text/plain" ∧
    ¬("text/plain" : String) = "" := by
  exact ⟨rfl, by decide⟩

/-- C7 witness: concrete application — a 5-character multibyte string
gets Content-Length 6, and a non-empty option overrides. -/
theorem uploadFile_text_inference_and_override_witness :
    uploadHeaders (deriveUploadParams "/x.txt".toList (.str "héllo".toList)) none [] =
      [("Content-Type", "text/plain"), ("Content-Length", Nat.repr 6)] ∧
    (uploadFile "/x.txt".toList (.str "hi".toList) (some "application/json")
        { status := 201, statusText := "Created" }).map (fun res => res.contentType) =
      .ok "application/json" :=
  ⟨(uploadFile_text_inference_and_override "/x.txt".toList "héllo".toList).1.trans
      (by decide),
    (uploadFile_text_inference_and_override "/x.txt".toList "hi".toList).2
      (.str "hi".toList) "application/json" { status := 201, statusText := "Created" }
      (by decide) rfl⟩

/-- C8 counterexample: updating with the one-character content `é`
(2 UTF-8 bytes) reports `size = 1`, the character count, refuting the
claim that the reported size is the byte length written. -/
theorem updateFile_reports_char_count_cex :
    updateFile { status := 200, statusText := "OK" } "/notes.txt".toList "é".toList =
      .ok { success := true, message := "文件更新成功", path := "/notes.txt".toList,
            size := 1 } ∧
    utf8ByteLength "é".toList = 2 ∧ ¬(1 : Nat) = 2 := by
  exact ⟨rfl, by decide, by decide⟩

/-- C8 witness: concrete application of the amended theorem. -/
theorem updateFile_internal_error_and_size_witness :
    updateFile { status := 500, statusText := "Server Error" } "/a.txt".toList "x".toList =
      .error ⟨.INTERNAL_ERROR, "更新文件失败: " ++ "Server Error"⟩ ∧
    updateFile { status := 200, statusText := "OK" } "/a.txt".toList "x".toList =
      .ok { success := true, message := "文件更新成功", path := "/a.txt".toList,
            size := jsStringLength "x".toList } :=
  ⟨(updateFile_internal_error_and_size { status := 500, statusText := "Server Error" }
      "/a.txt".toList "x".toList).1 rfl,
    (updateFile_internal_error_and_size { status := 200, statusText := "OK" }
      "/a.txt".toList "x".toList).2 rfl⟩

/-- C9 witness: concrete application to connect/auth/read successful,
write failed. -/
theorem diagnostic_overall_success_ignores_write_witness :
    (generateWebDAVTestSummary ⟨true, true, true, false⟩).overallSuccess = true ∧
    (generateWebDAVTestSummary ⟨true, true, true, false⟩).message =
      "WebDAV配置测试部分成功 (连接、认证、读取权限可用，写入权限不可用)" :=
  (diagnostic_overall_success_ignores_write ⟨true, true, true, false⟩).2 rfl rfl rfl rfl

/-- C10 witness: concrete application on an uninitialized driver
state. -/
theorem driver_operations_require_initialization_witness :
    driverList ⟨false⟩ "/docs".toList (fun _ => (Except.ok 0, ["PROPFIND"])) =
      (Except.error notInitializedError, []) ∧
    (driverInitialize ⟨false⟩).initialized = true :=
  ⟨(@driver_operations_require_initialization Nat ⟨false⟩ rfl "/docs".toList "/x".toList
      [] [] (fun _ => (Except.ok 0, ["PROPFIND"])) (fun _ => (Except.ok 0, ["PUT"]))
      (fun _ _ => (Except.ok 0, ["MOVE"])) (fun _ _ => (Except.ok 0, ["COPY"]))
      (fun _ => (Except.ok 0, ["DELETE"])) (fun _ => (Except.ok 0, ["COPY"]))).1,
    (@driver_operations_require_initialization Nat ⟨false⟩ rfl "/docs".toList "/x".toList
      [] [] (fun _ => (Except.ok 0, ["PROPFIND"])) (fun _ => (Except.ok 0, ["PUT"]))
      (fun _ _ => (Except.ok 0, ["MOVE"])) (fun _ _ => (Except.ok 0, ["COPY"]))
      (fun _ => (Except.ok 0, ["DELETE"])) (fun _ => (Except.ok 0, ["COPY"]))).2.2.2.2.2.2.2.2.2.2.2.2.2.2.2.2.2.2.2.2⟩
